import Mathlib

/-!
Verification of the locking protocol in src/lib/LockingMechanism.js.

The JavaScript class talks to a Redis-like store through the commands
setnx, get, getset, watch and multi/exec transactions. Each public
operation is embedded as a pure Lean function over an explicit trace of
what the store returned at each command, because between two store
round-trips other connections may change the store arbitrarily. The
trace fields appear in the order the source issues the commands, and
the returned structure records, besides the resolved or rejected value,
the store commands issued, the writes performed and the watches
registered, so that frame and side-effect claims can be stated.
-/

namespace LockingMechanism

/-- A JavaScript value, as far as the code under study distinguishes them:
keys can be strings or non-strings, rejection values are plain objects
with name and message fields, the lock-contended rejection is the
number 0, and store errors can be any value. -/
inductive JSVal where
  | vNull : JSVal
  | vUndefined : JSVal
  | vNum : Int → JSVal
  | vStr : String → JSVal
  | vBool : Bool → JSVal
  | vErrObj : String → String → JSVal
deriving DecidableEq, Repr

/-- The result of the JavaScript typeof operator on the modelled values. -/
def jsTypeOf : JSVal → String
  | .vNull => "object"
  | .vUndefined => "undefined"
  | .vNum _ => "number"
  | .vStr _ => "string"
  | .vBool _ => "boolean"
  | .vErrObj _ _ => "object"

/-- The rejection value built at lines 20 and 90 and 120 of the source:
an object with name "key error" and message "key must be string". The
spec calls this outcome KeyTypeError. -/
def keyError : JSVal := .vErrObj "key error" "key must be string"

/-- _makeKey from the source: the store key of the lock record. -/
def makeKey (key : String) : String := "lock-" ++ key

/-- _getTimeOut from the source: candidate expiry, current time plus ttl. -/
def getTimeOut (now ttl : ℕ) : ℕ := now + ttl

/-- Default ttl of a direct lock call (line 17 of the source). -/
def lockDefaultTtl : ℕ := 300

/-- Default ttl of a retryableLock call (line 64 of the source). -/
def retryableLockDefaultTtl : ℕ := 500

/-- Default sleep in milliseconds between retry attempts (lines 64, 158). -/
def defaultRetryAfter : ℕ := 150

/-- A store command issued by an operation, as visible on the wire. -/
inductive Cmd where
  | setnx : String → ℕ → Cmd
  | get : String → Cmd
  | getset : String → ℕ → Cmd
  | watch : String → Cmd
  | multiDelExec : String → Cmd
  | multiGetGetExec : String → String → Cmd
deriving DecidableEq, Repr

/-- What the store answered, and what the clock read, at each point of a
single lock call. Stored values are Redis strings holding millisecond
timestamps; we model them as optional naturals (none = key absent).
Fields are listed in the order the source reaches them:
now1 is the clock at line 25, atSetnx the value stored under the lock
key when setnx executes (line 27, none means setnx wins and returns 1),
atGet the value get returns (line 35), now2 the clock at line 38,
now3 the clock at line 47, atGetset the previous value getset returns
(line 48), now4 the clock at line 49. -/
structure LockTrace where
  now1 : ℕ
  atSetnx : Option ℕ
  atGet : Option ℕ
  now2 : ℕ
  now3 : ℕ
  atGetset : Option ℕ
  now4 : ℕ
deriving DecidableEq, Repr

deriving instance DecidableEq for Except

/-- Everything observable about one lock call: the promise outcome
(ok 1 = acquired, ok 0 = not acquired, error = rejected), the store
commands issued, the key-value writes performed on the store, and the
watches registered on the connection. -/
structure LockReturn where
  outcome : Except JSVal ℕ
  cmds : List Cmd
  writes : List (String × ℕ)
  watches : List String
deriving DecidableEq, Repr

/-- The steal branch of lock, lines 47-56 of the source: getset with a
freshly recomputed timeout (now3 + ttl), then the race check on the
previous value getset returned. The getset write happens on both of its
outcomes. -/
def lockSteal (s : String) (ttl : ℕ) (tr : LockTrace) : LockReturn :=
  let lockKey := makeKey s
  let lockTimeOut := getTimeOut tr.now1 ttl
  let lockTimeOut2 := getTimeOut tr.now3 ttl
  match tr.atGetset with
  | some prev =>
    if tr.now4 ≤ prev then
      { outcome := .ok 0
        cmds := [.setnx lockKey lockTimeOut, .get lockKey, .getset lockKey lockTimeOut2]
        writes := [(lockKey, lockTimeOut2)]
        watches := [] }
    else
      { outcome := .ok 1
        cmds := [.setnx lockKey lockTimeOut, .get lockKey, .getset lockKey lockTimeOut2,
                 .watch lockKey]
        writes := [(lockKey, lockTimeOut2)]
        watches := [lockKey] }
  | none =>
    { outcome := .ok 1
      cmds := [.setnx lockKey lockTimeOut, .get lockKey, .getset lockKey lockTimeOut2,
               .watch lockKey]
      writes := [(lockKey, lockTimeOut2)]
      watches := [lockKey] }

/-- lock(key, ttl) from lines 17-58 of the source, one single attempt.
Rejects with keyError when the key is not a string. Otherwise computes
lockTimeOut = now1 + ttl and issues setnx; if setnx returns 1 (the key
was absent) it watches the lock key and resolves 1. Otherwise it reads
the current value with get; a present value (any Redis string is
truthy) that is at least now2 resolves 0. Otherwise it recomputes the
timeout with now3, issues getset (which always overwrites the stored
value), and inspects the previous value: present and at least now4
resolves 0, otherwise it watches the lock key and resolves 1. -/
def lock (key : JSVal) (ttl : ℕ) (tr : LockTrace) : LockReturn :=
  match key with
  | .vStr s =>
    let lockKey := makeKey s
    let lockTimeOut := getTimeOut tr.now1 ttl
    match tr.atSetnx with
    | none =>
      { outcome := .ok 1
        cmds := [.setnx lockKey lockTimeOut, .watch lockKey]
        writes := [(lockKey, lockTimeOut)]
        watches := [lockKey] }
    | some _ =>
      match tr.atGet with
      | some cur =>
        if tr.now2 ≤ cur then
          { outcome := .ok 0
            cmds := [.setnx lockKey lockTimeOut, .get lockKey]
            writes := []
            watches := [] }
        else
          lockSteal s ttl tr
      | none => lockSteal s ttl tr
  | _ => { outcome := .error keyError, cmds := [], writes := [], watches := [] }

/-- lock with its ttl argument left to its default of 300. -/
def lockDefault (key : JSVal) (tr : LockTrace) : LockReturn :=
  lock key lockDefaultTtl tr

/-- How a retry loop settles its promise: resolved with a value, or
rejected with a value. -/
inductive RunOutcome (α : Type) where
  | resolved : α → RunOutcome α
  | rejected : JSVal → RunOutcome α
deriving DecidableEq, Repr

/-- One run of the while loop of retryableLock, lines 64-85 of the
source. att gives the outcome of the n-th underlying lock call (the
store may answer differently each time). attempts is the loop counter,
starting at 0. The loop body is: if maxAttempts is below 1 (the
keepRetrying flag) or attempts is below maxAttempts, await lock; a
rejection is re-raised at once; a resolved 1 resolves 1; otherwise the
counter is incremented and the loop sleeps retryAfter ms before the
next round. When the guard fails the loop resolves 0. fuel bounds how
many iterations we are willing to unfold; none means the loop was still
running when the fuel ran out. Besides the outcome we count the lock
calls made and the sleeps taken. -/
def retryableLockLoop (att : ℕ → Except JSVal ℕ) (maxAttempts : ℕ) :
    ℕ → ℕ → Option (RunOutcome ℕ × ℕ × ℕ)
  | _, 0 => none
  | attempts, fuel + 1 =>
    if maxAttempts < 1 ∨ attempts < maxAttempts then
      match att attempts with
      | .error e => some (.rejected e, 1, 0)
      | .ok r =>
        if r = 1 then
          some (.resolved 1, 1, 0)
        else
          match retryableLockLoop att maxAttempts (attempts + 1) fuel with
          | none => none
          | some (res, calls, sleeps) => some (res, calls + 1, sleeps + 1)
    else
      some (.resolved 0, 0, 0)

/-- retryableLock(key, ttl, retryAfter, maxAttempts) from lines 64-85:
the loop above with the n-th lock call answered by the n-th trace. -/
def retryableLock (key : JSVal) (ttl : ℕ) (trs : ℕ → LockTrace)
    (maxAttempts fuel : ℕ) : Option (RunOutcome ℕ × ℕ × ℕ) :=
  retryableLockLoop (fun n => (lock key ttl (trs n)).outcome) maxAttempts 0 fuel

/-- What the store answered during one unlock call: execErr is a hard
error passed by exec to its callback (none in normal operation);
aborted means exec returned null because a key watched on this
connection was modified after the watch was registered; cell is the
value stored under the lock key when the transaction body runs, which
determines how many keys the del command deletes. -/
structure UnlockTrace where
  execErr : Option JSVal
  aborted : Bool
  cell : Option ℕ
deriving DecidableEq, Repr

/-- Everything observable about one unlock call. -/
structure UnlockReturn where
  outcome : Except JSVal ℕ
  cmds : List Cmd
deriving DecidableEq, Repr

/-- unlock(key) from lines 87-115 of the source. Rejects with keyError
when the key is not a string. Otherwise runs multi().del(lockKey).exec:
a hard error is re-raised; a null result (aborted transaction) resolves
0; otherwise the single result of del is resolved, 1 if the lock key
existed and 0 if not. -/
def unlock (key : JSVal) (tr : UnlockTrace) : UnlockReturn :=
  match key with
  | .vStr s =>
    let lockKey := makeKey s
    let out : Except JSVal ℕ :=
      match tr.execErr with
      | some e => .error e
      | none =>
        if tr.aborted then
          .ok 0
        else
          .ok (match tr.cell with | some _ => 1 | none => 0)
    { outcome := out, cmds := [.multiDelExec lockKey] }
  | _ => { outcome := .error keyError, cmds := [] }

/-- What the store answered during one readWithLock call: execErr as in
unlock; execResult is none when the transaction was aborted (exec
returned null), otherwise the pair of results of get(lockKey) and
get(key); now is the clock at line 149. -/
structure ReadTrace where
  execErr : Option JSVal
  execResult : Option (Option ℕ × Option JSVal)
  now : ℕ
deriving DecidableEq, Repr

/-- Everything observable about one readWithLock call: the outcome is
either the value stored at the logical key (possibly absent, modelled
none) or a rejection value. -/
structure ReadReturn where
  outcome : Except JSVal (Option JSVal)
  cmds : List Cmd
deriving DecidableEq, Repr

/-- readWithLock(key) from lines 117-156 of the source. Rejects with
keyError when the key is not a string. Otherwise runs
multi().get(lockKey).get(key).exec: a hard error is re-raised; a null
result (aborted transaction) rejects with the number 0; otherwise the
results are destructured as (currentLockTimestamp, value) and a present
lock timestamp at least now rejects with the number 0; in every
remaining case the call resolves value. -/
def readWithLock (key : JSVal) (tr : ReadTrace) : ReadReturn :=
  match key with
  | .vStr s =>
    let lockKey := makeKey s
    let out : Except JSVal (Option JSVal) :=
      match tr.execErr with
      | some e => .error e
      | none =>
        match tr.execResult with
        | none => .error (.vNum 0)
        | some (currentLockTimestamp, value) =>
          match currentLockTimestamp with
          | some t => if tr.now ≤ t then .error (.vNum 0) else .ok value
          | none => .ok value
    { outcome := out, cmds := [.multiGetGetExec lockKey s] }
  | _ => { outcome := .error keyError, cmds := [] }

/-- One run of the while loop of readWithRetryableLock, lines 158-181
of the source. att gives the outcome of the n-th underlying
readWithLock call. The loop body awaits readWithLock; a rejection whose
value is not strictly equal to the number 0 is re-raised at once; a
rejection with 0 (the lock-contended outcome) increments the counter,
sleeps and continues; a resolution resolves the value. When the guard
fails the loop rejects with the number 0. Outcome, readWithLock call
count and sleep count are returned as in retryableLockLoop. -/
def readWithRetryableLockLoop (att : ℕ → Except JSVal (Option JSVal)) (maxAttempts : ℕ) :
    ℕ → ℕ → Option (RunOutcome (Option JSVal) × ℕ × ℕ)
  | _, 0 => none
  | attempts, fuel + 1 =>
    if maxAttempts < 1 ∨ attempts < maxAttempts then
      match att attempts with
      | .ok v => some (.resolved v, 1, 0)
      | .error e =>
        if e = .vNum 0 then
          match readWithRetryableLockLoop att maxAttempts (attempts + 1) fuel with
          | none => none
          | some (res, calls, sleeps) => some (res, calls + 1, sleeps + 1)
        else
          some (.rejected e, 1, 0)
    else
      some (.rejected (.vNum 0), 0, 0)

/-- readWithRetryableLock(key, retryAfter, maxAttempts) from lines
158-181: the loop above with the n-th readWithLock call answered by the
n-th trace. -/
def readWithRetryableLock (key : JSVal) (trs : ℕ → ReadTrace)
    (maxAttempts fuel : ℕ) : Option (RunOutcome (Option JSVal) × ℕ × ℕ) :=
  readWithRetryableLockLoop (fun n => (readWithLock key (trs n)).outcome) maxAttempts 0 fuel

/-- retryableLock with ttl, retryAfter and maxAttempts left to their
defaults: ttl 500, retryAfter 150, maxAttempts 0 meaning unlimited. -/
def retryableLockDefault (key : JSVal) (trs : ℕ → LockTrace) (fuel : ℕ) :
    Option (RunOutcome ℕ × ℕ × ℕ) :=
  retryableLock key retryableLockDefaultTtl trs 0 fuel

/-!
Interleaving model for concurrent lock calls on one key. Each lock call
touches only the single store cell at makeKey key, through the atomic
commands setnx, get and getset, with purely local computation in
between, so a race of several calls is a sequence of atomic cell
accesses in some order. A process is at one of three command points or
done with a resolved value; the clock values each process reads are
part of its environment. This is the same algorithm as lock above,
decomposed at its await points; the lemma raceRun_solo_lock below ties
the two presentations together. -/

/-- Program counter of one in-flight lock call: about to issue setnx
(line 27), about to issue get (line 35), about to issue getset
(line 48), or resolved with r. -/
inductive PState where
  | pStart : PState
  | pGet : PState
  | pSteal : PState
  | pDone : ℕ → PState
deriving DecidableEq, Repr

/-- The per-process environment of the race: the ttl argument of its
lock call and the four clock readings of lines 25, 38, 47 and 49. -/
structure ProcEnv where
  ttl : ℕ
  now1 : ℕ
  now2 : ℕ
  now3 : ℕ
  now4 : ℕ
deriving DecidableEq, Repr

/-- Global state of a race of n lock calls on one key: the store cell
under the lock key and the program counter of each process. -/
structure RaceState (n : ℕ) where
  cell : Option ℕ
  procs : Fin n → PState

/-- One atomic step of process i, following lines 27-56 of the source:
setnx writes now1 + ttl and resolves 1 only when the cell is empty,
otherwise the process moves on to get; get resolves 0 when the cell
holds a value at least now2 and otherwise moves on to the steal; getset
always overwrites the cell with now3 + ttl and resolves 0 when the
previous value was at least now4, else 1. A finished process does
nothing. -/
def raceStep {n : ℕ} (env : Fin n → ProcEnv) (s : RaceState n) (i : Fin n) : RaceState n :=
  match s.procs i with
  | .pStart =>
    match s.cell with
    | none =>
      { cell := some (getTimeOut (env i).now1 (env i).ttl)
        procs := Function.update s.procs i (.pDone 1) }
    | some _ => { s with procs := Function.update s.procs i .pGet }
  | .pGet =>
    match s.cell with
    | some v =>
      if (env i).now2 ≤ v then
        { s with procs := Function.update s.procs i (.pDone 0) }
      else
        { s with procs := Function.update s.procs i .pSteal }
    | none => { s with procs := Function.update s.procs i .pSteal }
  | .pSteal =>
    let res : ℕ :=
      match s.cell with
      | some prev => if (env i).now4 ≤ prev then 0 else 1
      | none => 1
    { cell := some (getTimeOut (env i).now3 (env i).ttl)
      procs := Function.update s.procs i (.pDone res) }
  | .pDone _ => s

/-- Run a race under a schedule: the schedule names, at each moment,
the process whose next store command executes. -/
def raceRun {n : ℕ} (env : Fin n → ProcEnv) (init : RaceState n)
    (sched : List (Fin n)) : RaceState n :=
  sched.foldl (raceStep env) init

/-- The initial race state on a fresh key: empty cell, every lock call
about to issue its setnx. -/
def raceInit (n : ℕ) : RaceState n :=
  { cell := none, procs := fun _ => .pStart }

/-- The clock readings of every process lie in the window [lo, hi] and
every ttl strictly exceeds the width of the window: no expiry written
during the race can elapse before the race is over. -/
def EnvOk {n : ℕ} (env : Fin n → ProcEnv) (lo hi : ℕ) : Prop :=
  ∀ i : Fin n,
    lo ≤ (env i).now1 ∧ (env i).now1 ≤ hi ∧
    lo ≤ (env i).now2 ∧ (env i).now2 ≤ hi ∧
    lo ≤ (env i).now3 ∧ (env i).now3 ≤ hi ∧
    lo ≤ (env i).now4 ∧ (env i).now4 ≤ hi ∧
    hi < lo + (env i).ttl

/-- Invariant of a fresh-key race within the clock window: either
nothing has happened yet, or the cell holds an expiry beyond the
window, a unique winner has resolved 1, and every other process has
not yet passed its get, or has resolved 0. -/
def RaceInv {n : ℕ} (hi : ℕ) (s : RaceState n) : Prop :=
  (s.cell = none ∧ ∀ i, s.procs i = .pStart)
  ∨ (∃ e, s.cell = some e ∧ hi < e ∧
      ∃ w, s.procs w = .pDone 1 ∧
        ∀ j, j ≠ w →
          (s.procs j = .pStart ∨ s.procs j = .pGet ∨ s.procs j = .pDone 0))

theorem raceStep_preserves_inv {n : ℕ} (env : Fin n → ProcEnv) (lo hi : ℕ)
    (henv : EnvOk env lo hi) (s : RaceState n) (i : Fin n)
    (h : RaceInv hi s) : RaceInv hi (raceStep env s i) := by
  rcases h with ⟨hc, hp⟩ | ⟨e, hc, he, w, hw, hothers⟩
  · have hsi := hp i
    refine Or.inr ⟨getTimeOut (env i).now1 (env i).ttl, ?_, ?_, i, ?_, ?_⟩
    · simp [raceStep, hsi, hc]
    · have h1 := (henv i).1
      have h9 := (henv i).2.2.2.2.2.2.2.2
      unfold getTimeOut
      omega
    · simp [raceStep, hsi, hc, Function.update_same]
    · intro j hj
      left
      simp only [raceStep, hsi, hc]
      rw [Function.update_noteq hj]
      exact hp j
  · by_cases hiw : i = w
    · subst hiw
      have : raceStep env s i = s := by simp [raceStep, hw]
      rw [this]
      exact Or.inr ⟨e, hc, he, i, hw, hothers⟩
    · rcases hothers i hiw with hsi | hsi | hsi
      · -- process i is about to setnx, the cell is occupied: it moves to pGet
        refine Or.inr ⟨e, ?_, he, w, ?_, ?_⟩
        · simp [raceStep, hsi, hc]
        · simp only [raceStep, hsi, hc]
          rw [Function.update_noteq (Ne.symm hiw)]
          exact hw
        · intro j hj
          simp only [raceStep, hsi, hc]
          by_cases hji : j = i
          · subst hji
            rw [Function.update_same]
            right; left; rfl
          · rw [Function.update_noteq hji]
            exact hothers j hj
      · -- process i is about to get: it sees a value beyond the window and resolves 0
        have hnow2 : (env i).now2 ≤ e := by
          have h4 := (henv i).2.2.2.1
          omega
        refine Or.inr ⟨e, ?_, he, w, ?_, ?_⟩
        · simp [raceStep, hsi, hc, hnow2]
        · simp only [raceStep, hsi, hc, if_pos hnow2]
          rw [Function.update_noteq (Ne.symm hiw)]
          exact hw
        · intro j hj
          simp only [raceStep, hsi, hc, if_pos hnow2]
          by_cases hji : j = i
          · subst hji
            rw [Function.update_same]
            right; right; rfl
          · rw [Function.update_noteq hji]
            exact hothers j hj
      · -- process i has already resolved 0: no step to take
        have : raceStep env s i = s := by simp [raceStep, hsi]
        rw [this]
        exact Or.inr ⟨e, hc, he, w, hw, hothers⟩

theorem raceRun_preserves_inv {n : ℕ} (env : Fin n → ProcEnv) (lo hi : ℕ)
    (henv : EnvOk env lo hi) (sched : List (Fin n)) (s : RaceState n)
    (h : RaceInv hi s) : RaceInv hi (raceRun env s sched) := by
  induction sched generalizing s with
  | nil => exact h
  | cons i rest ih =>
    exact ih (raceStep env s i) (raceStep_preserves_inv env lo hi henv s i h)

/-- A lock call that runs its store commands without interference
resolves, in the interleaving model, exactly what the trace-based lock
function resolves on the trace in which every read of the cell sees the
initial value: the two presentations of the algorithm agree. -/
theorem raceRun_solo_matches_lock (pe : ProcEnv) (c0 : Option ℕ) (s : String) (r : ℕ) :
    ((raceRun (fun _ => pe) ({ cell := c0, procs := fun _ => .pStart } : RaceState 1)
        ([0, 0, 0] : List (Fin 1))).procs 0 = .pDone r) ↔
      (lock (.vStr s) pe.ttl ⟨pe.now1, c0, c0, pe.now2, pe.now3, c0, pe.now4⟩).outcome = .ok r := by
  cases c0 with
  | none =>
    simp [raceRun, raceStep, lock, Function.update_same, eq_comm]
  | some v =>
    by_cases h2 : pe.now2 ≤ v
    · simp [raceRun, raceStep, lock, lockSteal, h2, Function.update_same, eq_comm]
    · by_cases h4 : pe.now4 ≤ v
      · simp [raceRun, raceStep, lock, lockSteal, h2, h4, Function.update_same, eq_comm]
      · simp [raceRun, raceStep, lock, lockSteal, h2, h4, Function.update_same, eq_comm]

/-- C9: for all concurrent lock(K, ttl) calls racing against a fresh
key K, under any interleaving of their store commands, if every call
has resolved and every clock reading of the race lies in a window
shorter than every ttl (so no expiry written during the race has
elapsed), then exactly one call resolved acquired (1) and every other
call resolved not acquired (0). -/
theorem lock_mutual_exclusion {n : ℕ} (env : Fin n → ProcEnv) (lo hi : ℕ)
    (sched : List (Fin n)) (hn : 0 < n) (henv : EnvOk env lo hi)
    (hdone : ∀ i, ∃ r, (raceRun env (raceInit n) sched).procs i = .pDone r) :
    ∃ w, (raceRun env (raceInit n) sched).procs w = .pDone 1 ∧
      ∀ j, j ≠ w → (raceRun env (raceInit n) sched).procs j = .pDone 0 := by
  have hinv : RaceInv hi (raceRun env (raceInit n) sched) :=
    raceRun_preserves_inv env lo hi henv sched _ (Or.inl ⟨rfl, fun _ => rfl⟩)
  rcases hinv with ⟨hc, hp⟩ | ⟨e, hc, he, w, hw, hothers⟩
  · exfalso
    obtain ⟨r, hr⟩ := hdone ⟨0, hn⟩
    rw [hp ⟨0, hn⟩] at hr
    exact PState.noConfusion hr
  · refine ⟨w, hw, fun j hj => ?_⟩
    rcases hothers j hj with h | h | h
    · obtain ⟨r, hr⟩ := hdone j
      rw [h] at hr
      exact absurd hr (by simp)
    · obtain ⟨r, hr⟩ := hdone j
      rw [h] at hr
      exact absurd hr (by simp)
    · exact h

/-- Concrete instance of lock_mutual_exclusion: two racing calls,
process 0 scheduled first, both completing inside the clock window. -/
theorem lock_mutual_exclusion_witness :
    ∃ w, (raceRun (fun _ => ⟨100, 10, 10, 10, 10⟩) (raceInit 2)
        ([0, 0, 0, 1, 1, 1] : List (Fin 2))).procs w = .pDone 1 ∧
      ∀ j, j ≠ w → (raceRun (fun _ => ⟨100, 10, 10, 10, 10⟩) (raceInit 2)
        ([0, 0, 0, 1, 1, 1] : List (Fin 2))).procs j = .pDone 0 :=
  lock_mutual_exclusion (fun _ => ⟨100, 10, 10, 10, 10⟩) 10 10
    ([0, 0, 0, 1, 1, 1] : List (Fin 2)) (by decide) (by unfold EnvOk; decide)
    (by
      intro i
      fin_cases i
      · exact ⟨1, by decide⟩
      · exact ⟨0, by decide⟩)

/-- C1: for every string key and positive ttl, a single lock call
resolves acquired exactly when the setnx succeeds (the key was absent),
or the value read by get is absent or strictly below the clock at the
comparison and the previous value returned by getset is absent or
strictly below the clock at its comparison; in every other case it
resolves not acquired; the candidate expiry passed to getset is
recomputed from the clock just before that call; and a watch on the
lock key is registered exactly on the acquired paths. -/
theorem lock_acquired_iff (s : String) (ttl : ℕ) (tr : LockTrace) (httl : 0 < ttl) :
    ((lock (.vStr s) ttl tr).outcome = .ok 1 ↔
      (tr.atSetnx = none ∨
        ((tr.atGet = none ∨ ∃ v, tr.atGet = some v ∧ v < tr.now2) ∧
         (tr.atGetset = none ∨ ∃ p, tr.atGetset = some p ∧ p < tr.now4))))
    ∧ ((lock (.vStr s) ttl tr).outcome = .ok 1 ∨ (lock (.vStr s) ttl tr).outcome = .ok 0)
    ∧ (∀ a, tr.atSetnx = some a → (tr.atGet = none ∨ ∃ v, tr.atGet = some v ∧ v < tr.now2) →
        Cmd.getset (makeKey s) (getTimeOut tr.now3 ttl) ∈ (lock (.vStr s) ttl tr).cmds)
    ∧ ((lock (.vStr s) ttl tr).watches =
        if (lock (.vStr s) ttl tr).outcome = .ok 1 then [makeKey s] else []) := by
  cases hsx : tr.atSetnx with
  | none =>
    simp [lock, hsx]
  | some a =>
    cases hg : tr.atGet with
    | none =>
      cases hgs : tr.atGetset with
      | none => simp [lock, lockSteal, hsx, hg, hgs]
      | some p =>
        by_cases h4 : tr.now4 ≤ p
        · simp [lock, lockSteal, hsx, hg, hgs, h4]
        · simp [lock, lockSteal, hsx, hg, hgs, h4]
          omega
    | some v =>
      by_cases h2 : tr.now2 ≤ v
      · simp [lock, lockSteal, hsx, hg, h2]
      · cases hgs : tr.atGetset with
        | none =>
          simp [lock, lockSteal, hsx, hg, hgs, h2]
          omega
        | some p =>
          by_cases h4 : tr.now4 ≤ p
          · simp [lock, lockSteal, hsx, hg, hgs, h2, h4]
          · simp [lock, lockSteal, hsx, hg, hgs, h2, h4]
            omega

/-- Concrete instance of lock_acquired_iff: a steal of an expired lock,
with ttl 300 and a trace in which the stored expiry 80 is already below
the clock reading 100. -/
theorem lock_acquired_iff_witness :
    ((lock (.vStr "job") 300 ⟨100, some 80, some 80, 100, 101, some 80, 101⟩).outcome = .ok 1 ↔
      ((some 80 : Option ℕ) = none ∨
        (((some 80 : Option ℕ) = none ∨ ∃ v, (some 80 : Option ℕ) = some v ∧ v < 100) ∧
         ((some 80 : Option ℕ) = none ∨ ∃ p, (some 80 : Option ℕ) = some p ∧ p < 101))))
    ∧ ((lock (.vStr "job") 300 ⟨100, some 80, some 80, 100, 101, some 80, 101⟩).outcome = .ok 1 ∨
       (lock (.vStr "job") 300 ⟨100, some 80, some 80, 100, 101, some 80, 101⟩).outcome = .ok 0)
    ∧ (∀ a, (some 80 : Option ℕ) = some a →
        ((some 80 : Option ℕ) = none ∨ ∃ v, (some 80 : Option ℕ) = some v ∧ v < 100) →
        Cmd.getset (makeKey "job") (getTimeOut 101 300) ∈
          (lock (.vStr "job") 300 ⟨100, some 80, some 80, 100, 101, some 80, 101⟩).cmds)
    ∧ ((lock (.vStr "job") 300 ⟨100, some 80, some 80, 100, 101, some 80, 101⟩).watches =
        if (lock (.vStr "job") 300 ⟨100, some 80, some 80, 100, 101, some 80, 101⟩).outcome = .ok 1
        then [makeKey "job"] else []) :=
  lock_acquired_iff "job" 300 ⟨100, some 80, some 80, 100, 101, some 80, 101⟩ (by decide)

/-- C2 counterexample: a lock call that resolves not acquired and yet
has written to the store. The trace: setnx fails (a value 5 is
stored), get reads 3 which is below the clock 10, so the call steals;
getset overwrites the cell with 10 + 300 = 310, but the previous value
it returns is 99, at least the clock 10, so the call resolves 0 —
after having written 310 under the lock key. -/
theorem lock_failed_write_counterexample :
    (lock (.vStr "k") 300 ⟨10, some 5, some 3, 10, 10, some 99, 10⟩).outcome = .ok 0 ∧
    (lock (.vStr "k") 300 ⟨10, some 5, some 3, 10, 10, some 99, 10⟩).writes =
      [(makeKey "k", 310)] := by
  exact ⟨rfl, rfl⟩

/-- C2 amended: a lock call that resolves not acquired through the get
comparison (step 4 of the spec) writes nothing; but a call that
resolves not acquired through the failed steal has already overwritten
the lock key, its only write, with the recomputed candidate expiry
now3 + ttl; no key other than the lock key is ever written, and no
watch is registered on a failed call. -/
theorem lock_not_acquired_writes (s : String) (ttl : ℕ) (tr : LockTrace)
    (h : (lock (.vStr s) ttl tr).outcome = .ok 0) :
    ((∃ v, tr.atGet = some v ∧ tr.now2 ≤ v) → (lock (.vStr s) ttl tr).writes = [])
    ∧ (∀ w ∈ (lock (.vStr s) ttl tr).writes, w = (makeKey s, getTimeOut tr.now3 ttl))
    ∧ (lock (.vStr s) ttl tr).watches = [] := by
  cases hsx : tr.atSetnx with
  | none =>
    simp [lock, hsx] at h
  | some a =>
    cases hg : tr.atGet with
    | none =>
      cases hgs : tr.atGetset with
      | none => simp [lock, lockSteal, hsx, hg, hgs] at h
      | some p =>
        by_cases h4 : tr.now4 ≤ p
        · simp [lock, lockSteal, hsx, hg, hgs, h4]
        · simp [lock, lockSteal, hsx, hg, hgs, h4] at h
    | some v =>
      by_cases h2 : tr.now2 ≤ v
      · simp [lock, hsx, hg, h2]
      · cases hgs : tr.atGetset with
        | none => simp [lock, lockSteal, hsx, hg, hgs, h2] at h
        | some p =>
          by_cases h4 : tr.now4 ≤ p
          · simp [lock, lockSteal, hsx, hg, hgs, h2, h4]
          · simp [lock, lockSteal, hsx, hg, hgs, h2, h4] at h

/-- Concrete instance of lock_not_acquired_writes, at the trace of the
counterexample above. -/
theorem lock_not_acquired_writes_witness :
    ((∃ v, (some 3 : Option ℕ) = some v ∧ 10 ≤ v) →
      (lock (.vStr "k") 300 ⟨10, some 5, some 3, 10, 10, some 99, 10⟩).writes = [])
    ∧ (∀ w ∈ (lock (.vStr "k") 300 ⟨10, some 5, some 3, 10, 10, some 99, 10⟩).writes,
        w = (makeKey "k", getTimeOut 10 300))
    ∧ (lock (.vStr "k") 300 ⟨10, some 5, some 3, 10, 10, some 99, 10⟩).watches = [] :=
  lock_not_acquired_writes "k" 300 ⟨10, some 5, some 3, 10, 10, some 99, 10⟩ rfl

/-- C3 counterexample: the lock-contended failure of readWithLock is
the number 0, and a store error whose value is the number 0 produces a
rejection identical to it — equal value, hence equal type/kind — and
the retry wrapper, which classifies by the value comparison with 0,
treats that store error as contention: it sleeps and retries instead of
propagating it (a propagated failure reports zero sleeps). -/
theorem contended_value_counterexample :
    (readWithLock (.vStr "k") ⟨none, none, 5⟩).outcome = .error (.vNum 0)
    ∧ (readWithLock (.vStr "k") ⟨some (.vNum 0), none, 5⟩).outcome = .error (.vNum 0)
    ∧ jsTypeOf (.vNum 0) = "number"
    ∧ readWithRetryableLockLoop (fun _ => .error (.vNum 0)) 1 0 2 =
        some (.rejected (.vNum 0), 1, 1) :=
  ⟨rfl, rfl, rfl, rfl⟩

/-- C3 amended: the lock-contended outcome is the primitive number 0,
and readWithRetryableLock distinguishes it from other failures by the
strict value comparison with 0, not by type or kind: every rejection
value other than the number 0 is propagated unchanged on the attempt
that produced it, with no retry, while a rejection equal to the number
0 is treated as contention. -/
theorem readWithRetryableLock_classifies_by_value
    (e : JSVal) (att : ℕ → Except JSVal (Option JSVal)) (maxAttempts fuel : ℕ)
    (he : e ≠ .vNum 0) (hfuel : 0 < fuel) (h0 : att 0 = .error e) :
    readWithRetryableLockLoop att maxAttempts 0 fuel = some (.rejected e, 1, 0) := by
  cases fuel with
  | zero => exact absurd hfuel (by omega)
  | succ f =>
    cases maxAttempts with
    | zero => simp [readWithRetryableLockLoop, h0, he]
    | succ m => simp [readWithRetryableLockLoop, h0, he]

/-- Concrete instance of readWithRetryableLock_classifies_by_value: a
store error object is propagated on the first attempt. -/
theorem readWithRetryableLock_classifies_by_value_witness :
    readWithRetryableLockLoop (fun _ => .error (.vErrObj "Error" "connection refused")) 3 0 5 =
      some (.rejected (.vErrObj "Error" "connection refused"), 1, 0) :=
  readWithRetryableLock_classifies_by_value (.vErrObj "Error" "connection refused")
    (fun _ => .error (.vErrObj "Error" "connection refused")) 3 5
    (by decide) (by decide) rfl

/-- C4: for every string key, when the store itself reports no hard
error, readWithLock rejects with the lock-contended value 0 exactly
when the transaction was aborted or the returned lock expiry is present
and at least the clock reading; in every other case it resolves the
value stored at the logical key, which may be absent. -/
theorem readWithLock_contended_iff (s : String) (tr : ReadTrace)
    (herr : tr.execErr = none) :
    ((readWithLock (.vStr s) tr).outcome = .error (.vNum 0) ↔
      (tr.execResult = none ∨
        ∃ res, tr.execResult = some res ∧ ∃ t, res.1 = some t ∧ tr.now ≤ t))
    ∧ (∀ res, tr.execResult = some res →
        (res.1 = none ∨ ∃ t, res.1 = some t ∧ t < tr.now) →
        (readWithLock (.vStr s) tr).outcome = .ok res.2) := by
  cases hres : tr.execResult with
  | none => simp [readWithLock, herr, hres]
  | some res =>
    obtain ⟨lockTs, value⟩ := res
    cases hts : lockTs with
    | none => simp [readWithLock, herr, hres, hts]
    | some t =>
      by_cases hnow : tr.now ≤ t
      · simp [readWithLock, herr, hres, hts, hnow]
      · simp [readWithLock, herr, hres, hts, hnow]

/-- Concrete instance of readWithLock_contended_iff: the stored lock
expiry 3 is below the clock 10, so the read resolves the stored value. -/
theorem readWithLock_contended_iff_witness :
    (((readWithLock (.vStr "k") ⟨none, some (some 3, some (.vStr "v")), 10⟩).outcome =
        .error (.vNum 0) ↔
      ((some (some 3, some (JSVal.vStr "v")) : Option (Option ℕ × Option JSVal)) = none ∨
        ∃ res, (some (some 3, some (JSVal.vStr "v")) : Option (Option ℕ × Option JSVal)) =
          some res ∧ ∃ t, res.1 = some t ∧ 10 ≤ t))
    ∧ (∀ res, (some (some 3, some (JSVal.vStr "v")) : Option (Option ℕ × Option JSVal)) =
          some res →
        (res.1 = none ∨ ∃ t, res.1 = some t ∧ t < 10) →
        (readWithLock (.vStr "k") ⟨none, some (some 3, some (.vStr "v")), 10⟩).outcome =
          .ok res.2)) :=
  readWithLock_contended_iff "k" ⟨none, some (some 3, some (.vStr "v")), 10⟩ rfl

/-- C5: for every string key, when the store itself reports no hard
error, unlock resolves 0 rather than erroring when the delete
transaction aborts because a watched key changed; otherwise it resolves
the number of keys the del command deleted, 1 when the lock key existed
and 0 when it did not; in particular unlock on an already-free key
resolves 0, not an error. -/
theorem unlock_outcomes (s : String) (tr : UnlockTrace)
    (herr : tr.execErr = none) :
    (tr.aborted = true → (unlock (.vStr s) tr).outcome = .ok 0)
    ∧ (tr.aborted = false →
        ((tr.cell = none → (unlock (.vStr s) tr).outcome = .ok 0)
          ∧ (∀ v, tr.cell = some v → (unlock (.vStr s) tr).outcome = .ok 1)))
    ∧ ((unlock (.vStr s) tr).outcome = .ok 0 ∨ (unlock (.vStr s) tr).outcome = .ok 1) := by
  cases hab : tr.aborted with
  | true => simp [unlock, herr, hab]
  | false =>
    cases hc : tr.cell with
    | none => simp [unlock, herr, hab, hc]
    | some v => simp [unlock, herr, hab, hc]

/-- Concrete instance of unlock_outcomes: unlock on an already-free
key, with no abort, resolves 0. -/
theorem unlock_outcomes_witness :
    ((true = true → (unlock (.vStr "k") ⟨none, true, none⟩).outcome = .ok 0)
    ∧ (true = false →
        (((none : Option ℕ) = none → (unlock (.vStr "k") ⟨none, true, none⟩).outcome = .ok 0)
          ∧ (∀ v, (none : Option ℕ) = some v →
              (unlock (.vStr "k") ⟨none, true, none⟩).outcome = .ok 1)))
    ∧ ((unlock (.vStr "k") ⟨none, true, none⟩).outcome = .ok 0 ∨
       (unlock (.vStr "k") ⟨none, true, none⟩).outcome = .ok 1)) :=
  unlock_outcomes "k" ⟨none, true, none⟩ rfl

/-- If every lock attempt the loop can reach resolves 0, a bounded
retryableLock loop starting at the attempt counter with k rounds left
makes exactly k further lock calls and k sleeps and resolves 0. -/
theorem retryableLockLoop_all_fail (att : ℕ → Except JSVal ℕ) (maxAttempts : ℕ)
    (hfail : ∀ j, j < maxAttempts → att j = .ok 0) :
    ∀ k attempts fuel, attempts + k = maxAttempts → 1 ≤ maxAttempts → k + 1 ≤ fuel →
      retryableLockLoop att maxAttempts attempts fuel = some (.resolved 0, k, k) := by
  intro k
  induction k with
  | zero =>
    intro attempts fuel hsum hmax hfuel
    cases fuel with
    | zero => omega
    | succ f =>
      have hguard : ¬(maxAttempts < 1 ∨ attempts < maxAttempts) := by omega
      simp only [retryableLockLoop]
      rw [if_neg hguard]
  | succ k ih =>
    intro attempts fuel hsum hmax hfuel
    cases fuel with
    | zero => omega
    | succ f =>
      have hguard : maxAttempts < 1 ∨ attempts < maxAttempts := by omega
      have hatt : att attempts = .ok 0 := hfail attempts (by omega)
      have hrec := ih (attempts + 1) f (by omega) hmax (by omega)
      simp only [retryableLockLoop]
      rw [if_pos hguard, hatt]
      simp [hrec]

/-- With unlimited attempts (maxAttempts 0), while every lock attempt
resolves 0 the retryableLock loop never settles: it consumes any amount
of fuel. -/
theorem retryableLockLoop_unlimited_all_fail (att : ℕ → Except JSVal ℕ)
    (hfail : ∀ j, att j = .ok 0) :
    ∀ fuel attempts, retryableLockLoop att 0 attempts fuel = none := by
  intro fuel
  induction fuel with
  | zero => intro attempts; rfl
  | succ f ih =>
    intro attempts
    simp only [retryableLockLoop]
    rw [if_pos (Or.inl (by omega)), hfail attempts]
    simp [ih (attempts + 1)]

/-- With unlimited attempts, if the first n lock attempts resolve 0 and
the n-th resolves 1, the retryableLock loop resolves 1 after n + 1 lock
calls and n sleeps. -/
theorem retryableLockLoop_until_success (att : ℕ → Except JSVal ℕ) (n : ℕ)
    (hf : ∀ k, k < n → att k = .ok 0) (hs : att n = .ok 1) :
    ∀ k attempts fuel, attempts + k = n → k + 1 ≤ fuel →
      retryableLockLoop att 0 attempts fuel = some (.resolved 1, k + 1, k) := by
  intro k
  induction k with
  | zero =>
    intro attempts fuel hsum hfuel
    cases fuel with
    | zero => omega
    | succ f =>
      have ha : attempts = n := by omega
      simp only [retryableLockLoop]
      rw [if_pos (Or.inl (by omega)), ha, hs]
      simp
  | succ k ih =>
    intro attempts fuel hsum hfuel
    cases fuel with
    | zero => omega
    | succ f =>
      have hatt : att attempts = .ok 0 := hf attempts (by omega)
      have hrec := ih (attempts + 1) f (by omega) (by omega)
      simp only [retryableLockLoop]
      rw [if_pos (Or.inl (by omega)), hatt]
      simp [hrec]

/-- C6: against a key whose lock attempts all resolve not acquired, a
retryableLock call with maxAttempts at least 1 makes exactly
maxAttempts lock calls, sleeping retryAfter between consecutive
attempts (one sleep after each failed attempt), and then resolves not
acquired; with maxAttempts 0 it never settles while attempts keep
failing, however much fuel it is given, and it resolves acquired after
n + 1 calls as soon as the n-th attempt is the first to succeed. -/
theorem retryableLock_retry_counts (key : JSVal) (ttl : ℕ)
    (trs trs2 : ℕ → LockTrace) (maxAttempts n : ℕ)
    (hfail : ∀ k, (lock key ttl (trs k)).outcome = .ok 0)
    (hfail2 : ∀ k, k < n → (lock key ttl (trs2 k)).outcome = .ok 0)
    (hsucc : (lock key ttl (trs2 n)).outcome = .ok 1) :
    (1 ≤ maxAttempts →
      retryableLock key ttl trs maxAttempts (maxAttempts + 1) =
        some (.resolved 0, maxAttempts, maxAttempts))
    ∧ (∀ fuel, retryableLock key ttl trs 0 fuel = none)
    ∧ retryableLock key ttl trs2 0 (n + 1) = some (.resolved 1, n + 1, n) := by
  refine ⟨fun hmax => ?_, fun fuel => ?_, ?_⟩
  · exact retryableLockLoop_all_fail _ maxAttempts (fun j _ => hfail j)
      maxAttempts 0 (maxAttempts + 1) (by omega) hmax (by omega)
  · exact retryableLockLoop_unlimited_all_fail _ hfail fuel 0
  · exact retryableLockLoop_until_success _ n hfail2 hsucc n 0 (n + 1) (by omega) (by omega)

/-- Concrete instance of retryableLock_retry_counts: a permanently held
key (stored expiry 100, clock 50) with maxAttempts 3, and a key whose
lock attempts succeed on the third try. -/
theorem retryableLock_retry_counts_witness :
    retryableLock (.vStr "k") 300 (fun _ => ⟨10, some 5, some 100, 50, 10, some 100, 50⟩) 3 4 =
      some (.resolved 0, 3, 3)
    ∧ retryableLock (.vStr "k") 300 (fun _ => ⟨10, some 5, some 100, 50, 10, some 100, 50⟩) 0 9 =
      none
    ∧ retryableLock (.vStr "k") 300
        (fun k => if k = 2 then ⟨10, none, none, 0, 0, none, 0⟩
          else ⟨10, some 5, some 100, 50, 10, some 100, 50⟩) 0 3 =
      some (.resolved 1, 3, 2) := by
  have h := retryableLock_retry_counts (.vStr "k") 300
    (fun _ => ⟨10, some 5, some 100, 50, 10, some 100, 50⟩)
    (fun k => if k = 2 then ⟨10, none, none, 0, 0, none, 0⟩
      else ⟨10, some 5, some 100, 50, 10, some 100, 50⟩) 3 2
    (fun _ => rfl)
    (by decide)
    (by decide)
  exact ⟨h.1 (by omega), h.2.1 9, h.2.2⟩

/-- If the first n lock attempts resolve 0 and the n-th attempt rejects
with e, and attempt n is still within the budget, the retryableLock
loop re-raises e: it settles as rejected e right at that attempt, with
no further lock call. -/
theorem retryableLockLoop_error_at (att : ℕ → Except JSVal ℕ) (n : ℕ) (e : JSVal)
    (maxAttempts : ℕ) (hf : ∀ k, k < n → att k = .ok 0) (he : att n = .error e)
    (hn : maxAttempts = 0 ∨ n < maxAttempts) :
    ∀ k attempts fuel, attempts + k = n → k + 1 ≤ fuel →
      retryableLockLoop att maxAttempts attempts fuel = some (.rejected e, k + 1, k) := by
  intro k
  induction k with
  | zero =>
    intro attempts fuel hsum hfuel
    cases fuel with
    | zero => omega
    | succ f =>
      have hguard : maxAttempts < 1 ∨ attempts < maxAttempts := by omega
      have ha : attempts = n := by omega
      simp only [retryableLockLoop]
      rw [if_pos hguard, ha, he]
  | succ k ih =>
    intro attempts fuel hsum hfuel
    cases fuel with
    | zero => omega
    | succ f =>
      have hguard : maxAttempts < 1 ∨ attempts < maxAttempts := by omega
      have hatt : att attempts = .ok 0 := hf attempts (by omega)
      have hrec := ih (attempts + 1) f (by omega) (by omega)
      simp only [retryableLockLoop]
      rw [if_pos hguard, hatt]
      simp [hrec]

/-- If the first n readWithLock attempts reject with the contended
value 0 and the n-th rejects with a value e other than 0, within the
budget, the readWithRetryableLock loop re-raises e at that attempt. -/
theorem readWithRetryableLockLoop_error_at (att : ℕ → Except JSVal (Option JSVal))
    (n : ℕ) (e : JSVal) (maxAttempts : ℕ)
    (hf : ∀ k, k < n → att k = .error (.vNum 0)) (he : att n = .error e)
    (hee : e ≠ .vNum 0) (hn : maxAttempts = 0 ∨ n < maxAttempts) :
    ∀ k attempts fuel, attempts + k = n → k + 1 ≤ fuel →
      readWithRetryableLockLoop att maxAttempts attempts fuel =
        some (.rejected e, k + 1, k) := by
  intro k
  induction k with
  | zero =>
    intro attempts fuel hsum hfuel
    cases fuel with
    | zero => omega
    | succ f =>
      have hguard : maxAttempts < 1 ∨ attempts < maxAttempts := by omega
      have ha : attempts = n := by omega
      simp only [readWithRetryableLockLoop]
      rw [if_pos hguard, ha, he]
      simp [hee]
  | succ k ih =>
    intro attempts fuel hsum hfuel
    cases fuel with
    | zero => omega
    | succ f =>
      have hguard : maxAttempts < 1 ∨ attempts < maxAttempts := by omega
      have hatt : att attempts = .error (.vNum 0) := hf attempts (by omega)
      have hrec := ih (attempts + 1) f (by omega) (by omega)
      simp only [readWithRetryableLockLoop]
      rw [if_pos hguard, hatt]
      simp [hrec]

/-- If every readWithLock attempt within the budget rejects with the
contended value 0, the bounded readWithRetryableLock loop exhausts its
budget and rejects with 0, never resolving. -/
theorem readWithRetryableLockLoop_exhaust (att : ℕ → Except JSVal (Option JSVal))
    (maxAttempts : ℕ) (hfail : ∀ j, j < maxAttempts → att j = .error (.vNum 0)) :
    ∀ k attempts fuel, attempts + k = maxAttempts → 1 ≤ maxAttempts → k + 1 ≤ fuel →
      readWithRetryableLockLoop att maxAttempts attempts fuel =
        some (.rejected (.vNum 0), k, k) := by
  intro k
  induction k with
  | zero =>
    intro attempts fuel hsum hmax hfuel
    cases fuel with
    | zero => omega
    | succ f =>
      have hguard : ¬(maxAttempts < 1 ∨ attempts < maxAttempts) := by omega
      simp only [readWithRetryableLockLoop]
      rw [if_neg hguard]
  | succ k ih =>
    intro attempts fuel hsum hmax hfuel
    cases fuel with
    | zero => omega
    | succ f =>
      have hguard : maxAttempts < 1 ∨ attempts < maxAttempts := by omega
      have hatt : att attempts = .error (.vNum 0) := hfail attempts (by omega)
      have hrec := ih (attempts + 1) f (by omega) hmax (by omega)
      simp only [readWithRetryableLockLoop]
      rw [if_pos hguard, hatt]
      simp [hrec]

/-- C7: failures other than the logical contention outcome propagate
immediately. A lock rejection (for instance the key-type rejection) is
re-raised by retryableLock at the attempt that produced it, with no
further attempt; a readWithLock rejection whose value is not the
contended 0 is re-raised by readWithRetryableLock at the attempt that
produced it; and when every attempt within the budget is contended,
readWithRetryableLock exhausts the budget and rejects with the
contended 0, never resolving a value. -/
theorem retry_wrappers_propagate (keyA keyB keyC : JSVal) (ttl : ℕ)
    (trs : ℕ → LockTrace) (rtrs rtrs2 : ℕ → ReadTrace)
    (e1 e2 : JSVal) (maxA maxB maxC m n : ℕ)
    (hf1 : ∀ k, k < m → (lock keyA ttl (trs k)).outcome = .ok 0)
    (he1 : (lock keyA ttl (trs m)).outcome = .error e1)
    (hm : maxA = 0 ∨ m < maxA)
    (hf2 : ∀ k, k < n → (readWithLock keyB (rtrs k)).outcome = .error (.vNum 0))
    (he2 : (readWithLock keyB (rtrs n)).outcome = .error e2)
    (hee : e2 ≠ .vNum 0)
    (hn : maxB = 0 ∨ n < maxB)
    (hf3 : ∀ k, k < maxC → (readWithLock keyC (rtrs2 k)).outcome = .error (.vNum 0))
    (hc : 1 ≤ maxC) :
    retryableLock keyA ttl trs maxA (m + 1) = some (.rejected e1, m + 1, m)
    ∧ readWithRetryableLock keyB rtrs maxB (n + 1) = some (.rejected e2, n + 1, n)
    ∧ readWithRetryableLock keyC rtrs2 maxC (maxC + 1) =
        some (.rejected (.vNum 0), maxC, maxC) := by
  refine ⟨?_, ?_, ?_⟩
  · exact retryableLockLoop_error_at _ m e1 maxA hf1 he1 hm m 0 (m + 1) (by omega) (by omega)
  · exact readWithRetryableLockLoop_error_at _ n e2 maxB hf2 he2 hee hn
      n 0 (n + 1) (by omega) (by omega)
  · exact readWithRetryableLockLoop_exhaust _ maxC hf3 maxC 0 (maxC + 1)
      (by omega) hc (by omega)

/-- Concrete instance of retry_wrappers_propagate: a non-string key
makes retryableLock re-raise the key-type rejection at once; a store
error object makes readWithRetryableLock re-raise it at once; an
always-aborted transaction makes readWithRetryableLock with
maxAttempts 2 reject the contended 0 after 2 attempts. -/
theorem retry_wrappers_propagate_witness :
    retryableLock (.vNum 7) 300 (fun _ => ⟨0, none, none, 0, 0, none, 0⟩) 3 1 =
      some (.rejected keyError, 1, 0)
    ∧ readWithRetryableLock (.vStr "k")
        (fun _ => ⟨some (.vErrObj "Error" "boom"), none, 0⟩) 3 1 =
      some (.rejected (.vErrObj "Error" "boom"), 1, 0)
    ∧ readWithRetryableLock (.vStr "k") (fun _ => ⟨none, none, 0⟩) 2 3 =
        some (.rejected (.vNum 0), 2, 2) :=
  retry_wrappers_propagate (.vNum 7) (.vStr "k") (.vStr "k") 300
    (fun _ => ⟨0, none, none, 0, 0, none, 0⟩)
    (fun _ => ⟨some (.vErrObj "Error" "boom"), none, 0⟩)
    (fun _ => ⟨none, none, 0⟩)
    keyError (.vErrObj "Error" "boom") 3 3 2 0 0
    (by omega) rfl (by omega)
    (by omega) rfl (by decide) (by omega)
    (fun k _ => rfl) (by omega)

/-- C8: for every key whose JavaScript typeof is not string, lock,
unlock and readWithLock reject with the key-type error before issuing
any store command: no command reaches the store, nothing is written,
and no watch is registered. -/
theorem key_type_validation (key : JSVal) (h : jsTypeOf key ≠ "string")
    (ttl : ℕ) (ltr : LockTrace) (utr : UnlockTrace) (rtr : ReadTrace) :
    ((lock key ttl ltr).outcome = .error keyError ∧ (lock key ttl ltr).cmds = []
      ∧ (lock key ttl ltr).writes = [] ∧ (lock key ttl ltr).watches = [])
    ∧ ((unlock key utr).outcome = .error keyError ∧ (unlock key utr).cmds = [])
    ∧ ((readWithLock key rtr).outcome = .error keyError ∧ (readWithLock key rtr).cmds = []) := by
  cases key with
  | vStr s => exact absurd rfl h
  | vNull => exact ⟨⟨rfl, rfl, rfl, rfl⟩, ⟨rfl, rfl⟩, ⟨rfl, rfl⟩⟩
  | vUndefined => exact ⟨⟨rfl, rfl, rfl, rfl⟩, ⟨rfl, rfl⟩, ⟨rfl, rfl⟩⟩
  | vNum v => exact ⟨⟨rfl, rfl, rfl, rfl⟩, ⟨rfl, rfl⟩, ⟨rfl, rfl⟩⟩
  | vBool b => exact ⟨⟨rfl, rfl, rfl, rfl⟩, ⟨rfl, rfl⟩, ⟨rfl, rfl⟩⟩
  | vErrObj a b => exact ⟨⟨rfl, rfl, rfl, rfl⟩, ⟨rfl, rfl⟩, ⟨rfl, rfl⟩⟩

/-- Concrete instance of key_type_validation at the numeric key 123,
as in the spec example lock(123). -/
theorem key_type_validation_witness :
    ((lock (.vNum 123) 300 ⟨0, none, none, 0, 0, none, 0⟩).outcome = .error keyError
      ∧ (lock (.vNum 123) 300 ⟨0, none, none, 0, 0, none, 0⟩).cmds = []
      ∧ (lock (.vNum 123) 300 ⟨0, none, none, 0, 0, none, 0⟩).writes = []
      ∧ (lock (.vNum 123) 300 ⟨0, none, none, 0, 0, none, 0⟩).watches = [])
    ∧ ((unlock (.vNum 123) ⟨none, false, none⟩).outcome = .error keyError
      ∧ (unlock (.vNum 123) ⟨none, false, none⟩).cmds = [])
    ∧ ((readWithLock (.vNum 123) ⟨none, none, 0⟩).outcome = .error keyError
      ∧ (readWithLock (.vNum 123) ⟨none, none, 0⟩).cmds = []) :=
  key_type_validation (.vNum 123) (by decide) 300
    ⟨0, none, none, 0, 0, none, 0⟩ ⟨none, false, none⟩ ⟨none, none, 0⟩

/-- C10: a defaulted retryableLock call passes ttl 500 to every
underlying lock attempt while a defaulted direct lock call uses ttl
300, so on the same trace the two write different expiries under the
lock key: the defaults make the two calls inequivalent. The last
conjunct shows a defaulted retryableLock whose first attempt wins the
setnx resolving after that one attempt. -/
theorem default_ttl_divergence (s : String) (tr : LockTrace) (h : tr.atSetnx = none) :
    lockDefaultTtl = 300
    ∧ retryableLockDefaultTtl = 500
    ∧ retryableLockDefaultTtl ≠ lockDefaultTtl
    ∧ (lockDefault (.vStr s) tr).writes = [(makeKey s, getTimeOut tr.now1 lockDefaultTtl)]
    ∧ (lock (.vStr s) retryableLockDefaultTtl tr).writes =
        [(makeKey s, getTimeOut tr.now1 retryableLockDefaultTtl)]
    ∧ getTimeOut tr.now1 retryableLockDefaultTtl ≠ getTimeOut tr.now1 lockDefaultTtl
    ∧ retryableLockDefault (.vStr s) (fun _ => tr) 1 = some (.resolved 1, 1, 0) := by
  refine ⟨rfl, rfl, by decide, ?_, ?_, ?_, ?_⟩
  · simp [lockDefault, lock, h]
  · simp [lock, h]
  · simp [getTimeOut, lockDefaultTtl, retryableLockDefaultTtl]
  · have hout : (lock (.vStr s) retryableLockDefaultTtl tr).outcome = .ok 1 := by
      simp [lock, h]
    simp only [retryableLockDefault, retryableLock, retryableLockLoop]
    rw [if_pos (Or.inl (by omega)), hout]
    simp

/-- Concrete instance of default_ttl_divergence: both defaulted calls
on the same fresh-key trace, clock 1000. -/
theorem default_ttl_divergence_witness :
    (lockDefaultTtl = 300
    ∧ retryableLockDefaultTtl = 500
    ∧ retryableLockDefaultTtl ≠ lockDefaultTtl
    ∧ (lockDefault (.vStr "k") ⟨1000, none, none, 0, 0, none, 0⟩).writes =
        [(makeKey "k", getTimeOut 1000 lockDefaultTtl)]
    ∧ (lock (.vStr "k") retryableLockDefaultTtl ⟨1000, none, none, 0, 0, none, 0⟩).writes =
        [(makeKey "k", getTimeOut 1000 retryableLockDefaultTtl)]
    ∧ getTimeOut 1000 retryableLockDefaultTtl ≠ getTimeOut 1000 lockDefaultTtl
    ∧ retryableLockDefault (.vStr "k") (fun _ => ⟨1000, none, none, 0, 0, none, 0⟩) 1 =
        some (.resolved 1, 1, 0)) :=
  default_ttl_divergence "k" ⟨1000, none, none, 0, 0, none, 0⟩ rfl

end LockingMechanism
